import Mathlib

/-!
Verification of the ingestion-utility layer of `genomedata`
(`genomedata/_util.py`): the FASTA-like record stream parser
(`LightIterator`), the transparent gzip opener (`maybe_gzip_open`), the
bigWig signature sniffer (`is_big_wig`), and the numeric bookkeeping
helpers (`init_num_obs`, `new_extrema`, `ignore_comments`).

Python strings are modelled as `List Char`; text streams (the lines an
open file handle yields) as `List (List Char)`; byte files as `List Nat`
with each byte below 256; numpy 1-D/2-D arrays as `List Int` /
`List (List Int)` (rectangular; broadcasting is not modelled).  Python
exceptions are modelled by explicit result constructors
(`NextOutcome.stop` for `StopIteration`, `NextOutcome.err` for
`ValueError`, `Except.error` for the sniffer, `none` for an
`AssertionError` / invalid-operand `TypeError`).
-/

namespace Genomedata

/-- A Python string: a list of characters. -/
abbrev Line := List Char

/-- `s.startswith(pre)` for Python strings. -/
def pyStartsWith (s pre : Line) : Bool :=
  pre.isPrefixOf s

/-- The ASCII whitespace characters stripped by Python's `str.rstrip()`:
space, tab, newline, carriage return, vertical tab, form feed. -/
def isPySpace (c : Char) : Bool :=
  c.toNat = 32 || c.toNat = 9 || c.toNat = 10 || c.toNat = 13 ||
  c.toNat = 11 || c.toNat = 12

/-- `s.rstrip()`: drop trailing whitespace. -/
def pyRstrip (s : Line) : Line :=
  (s.reverse.dropWhile isPySpace).reverse

/-- Python truthiness of an optional string (`None` and `""` are falsy). -/
def truthyOpt : Option Line → Bool
  | none => false
  | some s => !s.isEmpty

/-! ## Transparent File Opener (`maybe_gzip_open`) -/

/-- `os.extsep`. -/
def extsep : Line := ['.']

/-- `EXT_GZ = "gz"`. -/
def EXT_GZ : Line := ['g', 'z']

/-- `SUFFIX_GZ = extsep + EXT_GZ`. -/
def SUFFIX_GZ : Line := extsep ++ EXT_GZ

/-- Which kind of stream handle `maybe_gzip_open` returns. -/
inductive OpenResult where
  | gzipStream
  | plainFile
deriving DecidableEq

/-- `maybe_gzip_open(filename, *args, **kwargs)`: chooses the gzip path
iff the filename ends with `SUFFIX_GZ`; the open mode and the file's
content play no part in the decision, so they are not parameters. -/
def maybe_gzip_open (filename : Line) : OpenResult :=
  if SUFFIX_GZ.isSuffixOf filename then
    OpenResult.gzipStream
  else
    OpenResult.plainFile

/-! ## Observation-count check (`init_num_obs`) -/

/-- `continuous.shape[1]` of a rectangular 2-D array (all rows have the
first row's length). -/
def numCols (continuous : List (List Int)) : Nat :=
  (continuous.headD []).length

/-- `init_num_obs(num_obs, continuous)`: returns `continuous.shape[1]`,
after `assert num_obs is None or num_obs == curr_num_obs`; the failed
assertion (`AssertionError`) is modelled as `none`. -/
def init_num_obs (num_obs : Option Nat) (continuous : List (List Int)) :
    Option Nat :=
  let curr_num_obs := numCols continuous
  match num_obs with
  | none => some curr_num_obs
  | some n => if n = curr_num_obs then some curr_num_obs else none

/-! ## Extrema fold (`new_extrema`) -/

/-- `func(data, 0)` for `func` a numpy reduction (`amin`/`amax`) applied
with axis 0: the element-wise fold of the rows.  numpy raises on an
empty reduction axis and on ragged rows; both are modelled as `none`. -/
def axisReduce (func : Int → Int → Int) : List (List Int) → Option (List Int)
  | [] => none
  | r :: rs =>
    if rs.all (fun row => row.length = r.length) then
      some (rs.foldl (fun acc row => List.zipWith func acc row) r)
    else
      none

/-- `new_extrema(func, data, extrema)`: computes
`curr_extrema = func(data, 0)` and returns `func([extrema, curr_extrema], 0)`.
There is no check for the `None` sentinel: when `extrema` is `None`,
numpy's reduction compares `None` against numeric rows and fails
(`TypeError`), modelled as `none`. -/
def new_extrema (func : Int → Int → Int) (data : List (List Int))
    (extrema : Option (List Int)) : Option (List Int) :=
  match axisReduce func data with
  | none => none
  | some curr_extrema =>
    match extrema with
    | none => none
    | some e => axisReduce func [e, curr_extrema]

/-! ## Signature Sniffer (`is_big_wig`) -/

/-- The exceptions the sniffer can raise. -/
inductive UtilError where
  | ioError
  | structError
deriving DecidableEq

/-- `BIG_WIG_SIGNATURE = 0x888FFC26`. -/
def BIG_WIG_SIGNATURE : Nat := 0x888FFC26

/-- `BIG_WIG_SIGNATURE_BYTE_SIZE = 4`. -/
def BIG_WIG_SIGNATURE_BYTE_SIZE : Nat := 4

/-- `struct.unpack("<L", bytes)`: the 4 bytes as a little-endian
unsigned 32-bit integer. -/
def unpackLE (b0 b1 b2 b3 : Nat) : Nat :=
  b0 + 256 * b1 + 256 ^ 2 * b2 + 256 ^ 3 * b3

/-- `struct.unpack(">L", bytes)`: the 4 bytes as a big-endian unsigned
32-bit integer. -/
def unpackBE (b0 b1 b2 b3 : Nat) : Nat :=
  unpackLE b3 b2 b1 b0

/-- `is_big_wig(filename)`: `file.read(4)` returns
`min 4 (file.length)` bytes (a short read raises nothing);
`struct.unpack` then requires exactly 4 bytes and raises `struct.error`
otherwise.  With 4 bytes in hand it compares both byte-order
interpretations against `BIG_WIG_SIGNATURE`. -/
def is_big_wig (file : List Nat) : Except UtilError Bool :=
  match file.take BIG_WIG_SIGNATURE_BYTE_SIZE with
  | [b0, b1, b2, b3] =>
    let little_endian_signature := unpackLE b0 b1 b2 b3
    let big_endian_signature := unpackBE b0 b1 b2 b3
    if little_endian_signature = BIG_WIG_SIGNATURE ∨
        big_endian_signature = BIG_WIG_SIGNATURE then
      Except.ok true
    else
      Except.ok false
  | _ => Except.error UtilError.structError

/-! ## Comment filter (`ignore_comments`) -/

/-- `ignore_comments(iterable)`: keep the items that do not start
with `"#"`. -/
def ignore_comments (iterable : List Line) : List Line :=
  iterable.filter (fun item => !pyStartsWith item ['#'])

/-! ## Record Stream Parser (`LightIterator`)

The iterator's state is the not-yet-consumed tail of the handle's lines
together with `self._defline`.  One call of `next(self)` is the
`for line in self._handle` loop (`nextAux`, which threads
`defline_old`, the current `self._defline` and the accumulated `lines`)
followed by the post-loop code (`finishNext`). -/

structure LightIterator where
  handle : List Line
  defline : Option Line
deriving DecidableEq

/-- What one call of `LightIterator.next` produces: a `(label, body)`
record, a `StopIteration`, or the `ValueError` raised when no
definition line was found. -/
inductive NextOutcome where
  | stop
  | err
  | value (label body : Line)
deriving DecidableEq

/-- The code after the `for` loop of `next`:
`if not lines: raise StopIteration`;
`if defline_old is None: raise ValueError`;
`return defline_old, ''.join(lines)`.
`rest` is the unconsumed tail of the handle and `dSelf` the value of
`self._defline` at that point. -/
def finishNext (rest : List Line) (dOld dSelf : Option Line)
    (lines : List Line) : NextOutcome × LightIterator :=
  if lines.isEmpty then
    (NextOutcome.stop, ⟨rest, dSelf⟩)
  else
    match dOld with
    | none => (NextOutcome.err, ⟨rest, dSelf⟩)
    | some lab => (NextOutcome.value lab lines.flatten, ⟨rest, dSelf⟩)

/-- The `for line in self._handle` loop of `next`.  `dOld` is
`defline_old`, `dSelf` is `self._defline`, `lines` the accumulator.
An empty line raises `StopIteration` when `defline_old` is falsy and
`lines` is empty, ends the record (clearing `self._defline`) when
`defline_old` is truthy, and is otherwise skipped.  A line starting
with `">"` stores the stripped label `line[1:].rstrip()` in
`self._defline`, then either ends the record (when `defline_old` is
truthy or lines were accumulated) or becomes `defline_old`.  Any other
line is stripped and accumulated. -/
def nextAux : List Line → Option Line → Option Line → List Line →
    NextOutcome × LightIterator
  | [], dOld, dSelf, lines => finishNext [] dOld dSelf lines
  | line :: rest, dOld, dSelf, lines =>
    if line.isEmpty then
      if !truthyOpt dOld && lines.isEmpty then
        (NextOutcome.stop, ⟨rest, dSelf⟩)
      else if truthyOpt dOld then
        finishNext rest dOld none lines
      else
        nextAux rest dOld dSelf lines
    else if pyStartsWith line ['>'] then
      if truthyOpt dOld || !lines.isEmpty then
        finishNext rest dOld (some (pyRstrip line.tail)) lines
      else
        nextAux rest (some (pyRstrip line.tail)) (some (pyRstrip line.tail)) lines
    else
      nextAux rest dOld dSelf (lines ++ [pyRstrip line])

/-- One call of `LightIterator.next(self)`: run the loop starting with
`lines = []` and `defline_old = self._defline`. -/
def LightIterator.next (it : LightIterator) : NextOutcome × LightIterator :=
  nextAux it.handle it.defline it.defline []

theorem finishNext_handle (rest : List Line) (dOld dSelf : Option Line)
    (lines : List Line) : (finishNext rest dOld dSelf lines).2.handle = rest := by
  unfold finishNext
  split
  · rfl
  · split <;> rfl

theorem nextAux_handle_le (h : List Line) :
    ∀ dOld dSelf lines,
      (nextAux h dOld dSelf lines).2.handle.length ≤ h.length := by
  induction h with
  | nil =>
    intro dOld dSelf lines
    simp [nextAux, finishNext_handle]
  | cons line rest ih =>
    intro dOld dSelf lines
    unfold nextAux
    split
    · split
      · exact Nat.le_succ _
      · split
        · rw [finishNext_handle]
          exact Nat.le_succ _
        · exact (ih _ _ _).trans (Nat.le_succ _)
    · split
      · split
        · rw [finishNext_handle]
          exact Nat.le_succ _
        · exact (ih _ _ _).trans (Nat.le_succ _)
      · exact (ih _ _ _).trans (Nat.le_succ _)

theorem nextAux_cons_handle_le (line : Line) (rest : List Line)
    (dOld dSelf : Option Line) (lines : List Line) :
    (nextAux (line :: rest) dOld dSelf lines).2.handle.length ≤ rest.length := by
  unfold nextAux
  split
  · split
    · exact Nat.le_refl _
    · split
      · rw [finishNext_handle]
      · exact nextAux_handle_le rest _ _ _
  · split
    · split
      · rw [finishNext_handle]
      · exact nextAux_handle_le rest _ _ _
    · exact nextAux_handle_le rest _ _ _

theorem next_value_handle_lt {it it' : LightIterator} {lab body : Line}
    (h : it.next = (NextOutcome.value lab body, it')) :
    it'.handle.length < it.handle.length := by
  rcases it with ⟨hd, d⟩
  cases hd with
  | nil =>
    exfalso
    simp [LightIterator.next, nextAux, finishNext] at h
  | cons line rest =>
    have h2 := nextAux_cons_handle_le line rest d d []
    have h3 : (nextAux (line :: rest) d d []).2 = it' := by
      have := congrArg Prod.snd h
      simpa [LightIterator.next] using this
    rw [h3] at h2
    simp only [List.length_cons]
    omega

/-- Drive the iterator to exhaustion: the list of records yielded by
repeated calls of `next`, together with the outcome that ends the
iteration (`StopIteration`, or the `ValueError` for malformed input). -/
def LightIterator.drive (it : LightIterator) :
    List (Line × Line) × NextOutcome :=
  match h : it.next with
  | (NextOutcome.value lab body, it') =>
    ((lab, body) :: it'.drive.1, it'.drive.2)
  | (NextOutcome.stop, _) => ([], NextOutcome.stop)
  | (NextOutcome.err, _) => ([], NextOutcome.err)
termination_by it.handle.length
decreasing_by exact next_value_handle_lt h

theorem drive_value {it it' : LightIterator} {lab body : Line}
    (h : it.next = (NextOutcome.value lab body, it')) :
    it.drive = ((lab, body) :: it'.drive.1, it'.drive.2) := by
  conv_lhs => unfold LightIterator.drive
  split <;> rename_i heq <;> rw [h] at heq <;> simp_all

theorem drive_stop {it s : LightIterator}
    (h : it.next = (NextOutcome.stop, s)) :
    it.drive = ([], NextOutcome.stop) := by
  conv_lhs => unfold LightIterator.drive
  split <;> rename_i heq <;> rw [h] at heq <;> simp_all

theorem drive_err {it s : LightIterator}
    (h : it.next = (NextOutcome.err, s)) :
    it.drive = ([], NextOutcome.err) := by
  conv_lhs => unfold LightIterator.drive
  split <;> rename_i heq <;> rw [h] at heq <;> simp_all

/-! ## Well-formed record streams

A well-formed record stream is a sequence of blocks, each a marker line
(first character `>`, non-empty stripped label) followed by at least one
non-empty non-marker body line. -/

structure Block where
  marker : Line
  body : List Line
deriving DecidableEq

/-- The record label carried by a block's marker line:
`line[1:].rstrip()`. -/
def Block.label (b : Block) : Line := pyRstrip b.marker.tail

/-- Well-formedness of one block. -/
def Block.wf (b : Block) : Prop :=
  pyStartsWith b.marker ['>'] = true ∧ b.label ≠ [] ∧ b.body ≠ [] ∧
    ∀ l ∈ b.body, l ≠ [] ∧ pyStartsWith l ['>'] = false

instance Block.wfDecidable (b : Block) : Decidable b.wf := by
  unfold Block.wf
  infer_instance

/-- The lines of one block. -/
def Block.lines (b : Block) : List Line := b.marker :: b.body

/-- The record the parser should emit for one block. -/
def Block.record (b : Block) : Line × Line :=
  (b.label, (b.body.map pyRstrip).flatten)

/-- A well-formed record stream, as the list of its lines. -/
def flattenBlocks (bs : List Block) : List Line :=
  (bs.map Block.lines).flatten

/-- The number of marker lines of a stream. -/
def countMarkers (stream : List Line) : Nat :=
  (stream.filter (fun l => pyStartsWith l ['>'])).length

theorem isEmpty_false_of_ne_nil {α : Type} {l : List α} (h : l ≠ []) :
    l.isEmpty = false := by
  cases l with
  | nil => exact absurd rfl h
  | cons a as => rfl

theorem marker_not_empty {m : Line} (h : pyStartsWith m ['>'] = true) :
    m.isEmpty = false := by
  cases m with
  | nil => simp [pyStartsWith, List.isPrefixOf] at h
  | cons c cs => rfl

theorem truthyOpt_some {lab : Line} (h : lab ≠ []) :
    truthyOpt (some lab) = true := by
  cases lab with
  | nil => exact absurd rfl h
  | cons c cs => rfl

/-- Running the loop over body lines (non-empty, non-marker) just
accumulates their stripped forms. -/
theorem nextAux_body (body : List Line)
    (hbody : ∀ l ∈ body, l ≠ [] ∧ pyStartsWith l ['>'] = false) :
    ∀ (X : List Line) (dOld dSelf : Option Line) (acc : List Line),
      nextAux (body ++ X) dOld dSelf acc
        = nextAux X dOld dSelf (acc ++ body.map pyRstrip) := by
  induction body with
  | nil =>
    intro X dOld dSelf acc
    simp
  | cons l ls ih =>
    intro X dOld dSelf acc
    obtain ⟨hne, hmark⟩ := hbody l (List.mem_cons_self l ls)
    have hIH := ih (fun x hx => hbody x (List.mem_cons_of_mem l hx))
    rw [List.cons_append]
    conv_lhs => unfold nextAux
    rw [isEmpty_false_of_ne_nil hne, hmark]
    simp only [Bool.false_eq_true, if_false]
    rw [hIH]
    simp

/-- `next` on the last pending block: end-of-stream emits the final
record and leaves `self._defline` untouched. -/
theorem next_pending_last (b : Block) (lab : Line) (hlab : lab ≠ [])
    (hb : b.wf) :
    (LightIterator.mk b.body (some lab)).next
      = (NextOutcome.value lab (b.body.map pyRstrip).flatten,
         ⟨[], some lab⟩) := by
  show nextAux b.body (some lab) (some lab) [] = _
  have hB := nextAux_body b.body hb.2.2.2 [] (some lab) (some lab) []
  rw [List.append_nil, List.nil_append] at hB
  rw [hB]
  unfold nextAux finishNext
  rw [isEmpty_false_of_ne_nil (by simp [hb.2.2.1] :
    b.body.map pyRstrip ≠ [])]
  simp

/-- `next` on a pending block followed by further blocks: the next
marker line ends the record, and the new label becomes
`self._defline`. -/
theorem next_pending_cons (b b' : Block) (bs' : List Block) (lab : Line)
    (hlab : lab ≠ []) (hb : b.wf) (hb' : b'.wf) :
    (LightIterator.mk (b.body ++ flattenBlocks (b' :: bs')) (some lab)).next
      = (NextOutcome.value lab (b.body.map pyRstrip).flatten,
         ⟨b'.body ++ flattenBlocks bs', some b'.label⟩) := by
  show nextAux (b.body ++ flattenBlocks (b' :: bs')) (some lab)
      (some lab) [] = _
  rw [nextAux_body b.body hb.2.2.2 _ _ _ _, List.nil_append]
  rw [show flattenBlocks (b' :: bs')
      = b'.marker :: (b'.body ++ flattenBlocks bs') by
    simp [flattenBlocks, Block.lines]]
  unfold nextAux
  rw [marker_not_empty hb'.1, hb'.1, truthyOpt_some hlab]
  unfold finishNext
  rw [isEmpty_false_of_ne_nil (by simp [hb.2.2.1] :
    b.body.map pyRstrip ≠ [])]
  simp [Block.label]

/-- Driving the iterator from a pending state over well-formed blocks
yields the pending record followed by the blocks' records, and ends
with `StopIteration`. -/
theorem drive_pending (bs : List Block) :
    ∀ (b : Block) (lab : Line), lab ≠ [] → b.wf → (∀ x ∈ bs, x.wf) →
      (LightIterator.mk (b.body ++ flattenBlocks bs) (some lab)).drive
        = ((lab, (b.body.map pyRstrip).flatten) :: bs.map Block.record,
           NextOutcome.stop) := by
  induction bs with
  | nil =>
    intro b lab hlab hb _
    rw [show flattenBlocks [] = [] from rfl, List.append_nil]
    rw [drive_value (next_pending_last b lab hlab hb)]
    rw [drive_stop (show (LightIterator.mk [] (some lab)).next
      = (NextOutcome.stop, ⟨[], some lab⟩) from rfl)]
    rfl
  | cons b' bs' ih =>
    intro b lab hlab hb hbs
    have hb' : b'.wf := hbs b' (List.mem_cons_self _ _)
    have hbs' : ∀ x ∈ bs', x.wf := fun x hx => hbs x (List.mem_cons_of_mem _ hx)
    rw [drive_value (next_pending_cons b b' bs' lab hlab hb hb')]
    rw [ih b' b'.label hb'.2.1 hb' hbs']
    simp [Block.record]

/-- The first `next` call of a fresh iterator on a non-empty
well-formed stream behaves like a call from the pending state after the
first marker. -/
theorem next_seek (b : Block) (bs : List Block) (hb : b.wf) :
    (LightIterator.mk (flattenBlocks (b :: bs)) none).next
      = (LightIterator.mk (b.body ++ flattenBlocks bs) (some b.label)).next := by
  show nextAux (flattenBlocks (b :: bs)) none none []
      = nextAux (b.body ++ flattenBlocks bs) (some b.label) (some b.label) []
  rw [show flattenBlocks (b :: bs)
      = b.marker :: (b.body ++ flattenBlocks bs) by
    simp [flattenBlocks, Block.lines]]
  conv_lhs => unfold nextAux
  rw [marker_not_empty hb.1, hb.1]
  simp [truthyOpt, Block.label]

/-- Driving a fresh iterator over a well-formed stream yields exactly
the blocks' records and ends with `StopIteration`. -/
theorem drive_seek (bs : List Block) (hwf : ∀ b ∈ bs, b.wf) :
    (LightIterator.mk (flattenBlocks bs) none).drive
      = (bs.map Block.record, NextOutcome.stop) := by
  cases bs with
  | nil => exact drive_stop rfl
  | cons b bs' =>
    have hb : b.wf := hwf b (List.mem_cons_self _ _)
    have hbs' : ∀ x ∈ bs', x.wf := fun x hx => hwf x (List.mem_cons_of_mem _ hx)
    have hnext := next_seek b bs' hb
    cases bs' with
    | nil =>
      rw [show flattenBlocks [] = [] from rfl, List.append_nil] at hnext
      rw [drive_value (hnext.trans (next_pending_last b b.label hb.2.1 hb))]
      rw [drive_stop (show (LightIterator.mk [] (some b.label)).next
        = (NextOutcome.stop, ⟨[], some b.label⟩) from rfl)]
      simp [Block.record]
    | cons b' bs'' =>
      have hb' : b'.wf := hbs' b' (List.mem_cons_self _ _)
      have hbs'' : ∀ x ∈ bs'', x.wf :=
        fun x hx => hbs' x (List.mem_cons_of_mem _ hx)
      rw [drive_value (hnext.trans
        (next_pending_cons b b' bs'' b.label hb.2.1 hb hb'))]
      rw [drive_pending bs'' b' b'.label hb'.2.1 hb' hbs'']
      simp [Block.record]

/-- Body lines of a well-formed stream are not markers, so the marker
count is the block count. -/
theorem countMarkers_flatten (bs : List Block) (hwf : ∀ b ∈ bs, b.wf) :
    countMarkers (flattenBlocks bs) = bs.length := by
  induction bs with
  | nil => rfl
  | cons b bs' ih =>
    have hb : b.wf := hwf b (List.mem_cons_self _ _)
    have hbs' : ∀ x ∈ bs', x.wf := fun x hx => hwf x (List.mem_cons_of_mem _ hx)
    have hbody : b.body.filter (fun l => pyStartsWith l ['>']) = [] := by
      rw [List.filter_eq_nil_iff]
      intro l hl
      simp [(hb.2.2.2 l hl).2]
    rw [show flattenBlocks (b :: bs')
        = b.marker :: (b.body ++ flattenBlocks bs') by
      simp [flattenBlocks, Block.lines]]
    have := ih hbs'
    simp only [countMarkers, List.filter_cons, hb.1, if_true,
      List.filter_append, hbody, List.nil_append, List.length_cons,
      List.length_append, List.length_nil] at this ⊢
    omega

/-- If `defline_old` is `None` and body lines have been accumulated,
the loop can only end in the `ValueError`. -/
theorem nextAux_noDefline_err (h : List Line) :
    ∀ (dSelf : Option Line) (lines : List Line), lines ≠ [] →
      (nextAux h none dSelf lines).1 = NextOutcome.err := by
  induction h with
  | nil =>
    intro dSelf lines hls
    simp [nextAux, finishNext, isEmpty_false_of_ne_nil hls]
  | cons line rest ih =>
    intro dSelf lines hls
    unfold nextAux
    split
    · rw [show truthyOpt none = false from rfl]
      rw [isEmpty_false_of_ne_nil hls]
      simp only [Bool.not_false, Bool.and_false, Bool.false_eq_true,
        if_false]
      exact ih dSelf lines hls
    · split
      · rw [show truthyOpt none = false from rfl,
          isEmpty_false_of_ne_nil hls]
        simp only [Bool.not_false, Bool.false_or, if_true]
        simp [finishNext, isEmpty_false_of_ne_nil hls]
      · exact ih dSelf (lines ++ [pyRstrip line]) (by simp)

/-- A stream of only marker lines never reaches the emit point with
accumulated body lines: every `next` from it stops. -/
theorem nextAux_markers_stop (h : List Line) :
    ∀ (dOld dSelf : Option Line), (∀ l ∈ h, pyStartsWith l ['>'] = true) →
      (nextAux h dOld dSelf []).1 = NextOutcome.stop := by
  induction h with
  | nil => intro dOld dSelf _; rfl
  | cons line rest ih =>
    intro dOld dSelf hall
    have hm := hall line (List.mem_cons_self _ _)
    unfold nextAux
    rw [marker_not_empty hm, hm]
    by_cases hd : truthyOpt dOld = true
    · simp [hd, finishNext]
    · rw [Bool.not_eq_true] at hd
      simp only [hd, List.isEmpty_nil, Bool.not_true, Bool.or_false,
        Bool.false_eq_true, if_false]
      exact ih _ _ (fun l hl => hall l (List.mem_cons_of_mem _ hl))

/-- `drive` of an iterator whose next call stops. -/
theorem drive_stop_of_fst {it : LightIterator}
    (h : (it.next).1 = NextOutcome.stop) :
    it.drive = ([], NextOutcome.stop) :=
  drive_stop (show it.next = (NextOutcome.stop, (it.next).2) by
    rw [← h])

/-! ## Extrema-fold support lemmas -/

theorem axisReduce_eq (func : Int → Int → Int) (r : List Int)
    (rs : List (List Int)) (h : ∀ row ∈ rs, row.length = r.length) :
    axisReduce func (r :: rs)
      = some (rs.foldl (fun acc row => List.zipWith func acc row) r) := by
  simp only [axisReduce]
  rw [if_pos]
  rw [List.all_eq_true]
  intro row hrow
  simp [h row hrow]

theorem axisReduce_pair (func : Int → Int → Int) (e curr : List Int)
    (h : curr.length = e.length) :
    axisReduce func [e, curr] = some (List.zipWith func e curr) := by
  simp only [axisReduce]
  rw [if_pos]
  · rfl
  · rw [List.all_eq_true]
    intro row hrow
    simp only [List.mem_singleton] at hrow
    simp [hrow, h]

theorem forall2_le_refl (l : List Int) : List.Forall₂ (· ≤ ·) l l := by
  induction l with
  | nil => exact List.Forall₂.nil
  | cons a as ih => exact List.Forall₂.cons (le_refl a) ih

theorem zipWith_min_le_zipWith_max {a b r s : List Int}
    (hab : List.Forall₂ (· ≤ ·) a b) (hrs : List.Forall₂ (· ≤ ·) r s) :
    List.Forall₂ (· ≤ ·) (List.zipWith min a r) (List.zipWith max b s) := by
  induction hab generalizing r s with
  | nil => simp
  | cons hxy hrest ih =>
    cases hrs with
    | nil => simp
    | cons huv hrs' =>
      rw [List.zipWith_cons_cons, List.zipWith_cons_cons]
      exact List.Forall₂.cons
        (le_trans (min_le_left _ _) (le_trans hxy (le_max_left _ _)))
        (ih hrs')

theorem foldl_zipWith_le (rows : List (List Int)) :
    ∀ {acc1 acc2 : List Int}, List.Forall₂ (· ≤ ·) acc1 acc2 →
      List.Forall₂ (· ≤ ·)
        (rows.foldl (fun acc row => List.zipWith min acc row) acc1)
        (rows.foldl (fun acc row => List.zipWith max acc row) acc2) := by
  induction rows with
  | nil => intro acc1 acc2 h; exact h
  | cons row rest ih =>
    intro acc1 acc2 h
    exact ih (zipWith_min_le_zipWith_max h (forall2_le_refl row))

theorem foldl_zipWith_length (op : Int → Int → Int) (rows : List (List Int)) :
    ∀ acc : List Int, (∀ r ∈ rows, r.length = acc.length) →
      (rows.foldl (fun acc row => List.zipWith op acc row) acc).length
        = acc.length := by
  induction rows with
  | nil => intro acc _; rfl
  | cons row rest ih =>
    intro acc hlen
    have h1 : (List.zipWith op acc row).length = acc.length := by
      rw [List.length_zipWith, hlen row (List.mem_cons_self _ _), min_self]
    rw [List.foldl_cons,
      ih (List.zipWith op acc row)
        (fun r hr => by rw [h1]; exact hlen r (List.mem_cons_of_mem _ hr)),
      h1]

/-! ## Claims -/

/-- C1: for every well-formed record-stream input (a sequence of blocks,
each a `>`-marker line with a non-empty stripped label followed by at
least one non-empty non-marker body line) containing N marker lines,
iterating the parser to exhaustion yields exactly N records (N equals
the stream's marker-line count), each with a non-empty label, in file
order, and ends with `StopIteration` — in particular the final pending
record is emitted at end-of-stream. -/
theorem claim_C1 (bs : List Block) (hwf : ∀ b ∈ bs, b.wf) :
    (LightIterator.mk (flattenBlocks bs) none).drive
        = (bs.map Block.record, NextOutcome.stop)
    ∧ ((LightIterator.mk (flattenBlocks bs) none).drive.1).length
        = countMarkers (flattenBlocks bs)
    ∧ ∀ r ∈ (LightIterator.mk (flattenBlocks bs) none).drive.1, r.1 ≠ [] := by
  have h := drive_seek bs hwf
  refine ⟨h, ?_, ?_⟩
  · rw [h, countMarkers_flatten bs hwf]
    simp
  · rw [h]
    intro r hr
    simp only [List.mem_map] at hr
    obtain ⟨b, hb, rfl⟩ := hr
    exact (hwf b hb).2.1

/-- Witness for C1: a two-record stream `>a / AC / >b / G`. -/
theorem claim_C1_witness :
    (∀ b ∈ ([⟨['>', 'a'], [['A', 'C']]⟩, ⟨['>', 'b'], [['G']]⟩] : List Block),
      b.wf)
    ∧ (LightIterator.mk
        (flattenBlocks [⟨['>', 'a'], [['A', 'C']]⟩, ⟨['>', 'b'], [['G']]⟩])
        none).drive
      = ([⟨['>', 'a'], [['A', 'C']]⟩,
          (⟨['>', 'b'], [['G']]⟩ : Block)].map Block.record,
         NextOutcome.stop) :=
  ⟨by decide, (claim_C1 _ (by decide)).1⟩

/-- C4: a record stream whose first line is a non-empty non-marker body
line makes the very first `next` call fail with the `ValueError`
(`MalformedInputError`-equivalent), whatever follows. -/
theorem claim_C4 (line : Line) (rest : List Line)
    (hne : line ≠ []) (hmark : pyStartsWith line ['>'] = false) :
    ((LightIterator.mk (line :: rest) none).next).1 = NextOutcome.err := by
  show (nextAux (line :: rest) none none []).1 = _
  conv_lhs => unfold nextAux
  rw [isEmpty_false_of_ne_nil hne, hmark]
  simp only [Bool.false_eq_true, if_false, List.nil_append]
  exact nextAux_noDefline_err rest none [pyRstrip line] (by simp)

/-- Witness for C4: the stream `ACGT / >a`. -/
theorem claim_C4_witness :
    (['A', 'C', 'G', 'T'] : Line) ≠ []
    ∧ pyStartsWith ['A', 'C', 'G', 'T'] ['>'] = false
    ∧ ((LightIterator.mk [['A', 'C', 'G', 'T'], ['>', 'a']] none).next).1
        = NextOutcome.err :=
  ⟨by decide, by decide, claim_C4 _ _ (by decide) (by decide)⟩

/-- C9 (amended): a marker line followed by no lines before the next
marker or end-of-stream never produces a yielded record — in particular
a stream consisting solely of marker lines yields no records and ends
with `StopIteration`; however, a yielded record's body *string* may be
empty (see `claim_C9_counterexample`), since a record is emitted
whenever at least one body line was accumulated, even if all its body
lines strip to the empty string. -/
theorem claim_C9 (h : List Line)
    (hmarks : ∀ l ∈ h, pyStartsWith l ['>'] = true) :
    (LightIterator.mk h none).drive = ([], NextOutcome.stop) :=
  drive_stop_of_fst (nextAux_markers_stop h none none hmarks)

/-- Counterexample to C9 as stated: on the stream `>a / "\n"` the
parser yields the record `("a", "")` whose body string is empty. -/
theorem claim_C9_counterexample :
    ¬ ∀ (it it' : LightIterator) (lab body : Line),
        it.next = (NextOutcome.value lab body, it') → body ≠ [] := by
  intro hall
  exact hall (LightIterator.mk [['>', 'a'], ['\n']] none)
    ⟨[], some ['a']⟩ ['a'] [] rfl rfl

/-- Witness for C9: the stream `>a / >b` yields no records. -/
theorem claim_C9_witness :
    (∀ l ∈ ([['>', 'a'], ['>', 'b']] : List Line),
      pyStartsWith l ['>'] = true)
    ∧ (LightIterator.mk [['>', 'a'], ['>', 'b']] none).drive
        = ([], NextOutcome.stop) :=
  ⟨by decide, claim_C9 _ (by decide)⟩

/-- C2 (amended): when an existing extremum array (of the reduction's
length) is supplied, `new_extrema` returns the element-wise extremum of
it and the batch's own reduction along the batch axis; but when the
existing extremum is the `None` sentinel the call fails — the code
performs no sentinel check and feeds `None` into the reduction — rather
than returning the batch's own reduction. -/
theorem claim_C2 (func : Int → Int → Int) (data : List (List Int))
    (curr e : List Int) (hdata : axisReduce func data = some curr)
    (hlen : e.length = curr.length) :
    new_extrema func data (some e) = some (List.zipWith func e curr)
    ∧ new_extrema func data none = none := by
  constructor
  · unfold new_extrema
    rw [hdata]
    exact axisReduce_pair func e curr hlen.symm
  · unfold new_extrema
    rw [hdata]

/-- Counterexample to C2 as stated: on the first call (sentinel
extremum) the result is a failure, not the batch's own reduction
`[1]`. -/
theorem claim_C2_counterexample :
    new_extrema min [[(1 : Int)]] none = none
    ∧ axisReduce min [[(1 : Int)]] = some [1] := by
  constructor <;> decide

/-- Witness for C2: batch `[[1,5],[4,0]]` with existing extremum
`[2,3]` under `min`. -/
theorem claim_C2_witness :
    axisReduce min [[(1 : Int), 5], [4, 0]] = some [1, 0]
    ∧ ([2, 3] : List Int).length = ([1, 0] : List Int).length
    ∧ new_extrema min [[(1 : Int), 5], [4, 0]] (some [2, 3])
        = some (List.zipWith min [2, 3] [1, 0])
    ∧ new_extrema min [[(1 : Int), 5], [4, 0]] none = none := by
  refine ⟨by decide, by decide, ?_, ?_⟩
  · exact (claim_C2 min [[(1 : Int), 5], [4, 0]] [1, 0] [2, 3]
      (by decide) (by decide)).1
  · exact (claim_C2 min [[(1 : Int), 5], [4, 0]] [1, 0] [2, 3]
      (by decide) (by decide)).2

/-- C8: folding a batch into a running extremum pair with `min` and
`max` preserves the invariant `min ≤ max` at every position: for a
non-empty batch of rows of length `n` and existing extrema of length
`n` with `cur_min ≤ cur_max` element-wise, both folds succeed and the
results satisfy `new_min ≤ new_max` element-wise. -/
theorem claim_C8 (d0 : List Int) (ds : List (List Int))
    (cmin cmax : List Int) (n : Nat)
    (hrows : ∀ r ∈ d0 :: ds, r.length = n)
    (hmin : cmin.length = n) (hmax : cmax.length = n)
    (hle : List.Forall₂ (· ≤ ·) cmin cmax) :
    ∃ nmin nmax,
      new_extrema min (d0 :: ds) (some cmin) = some nmin
      ∧ new_extrema max (d0 :: ds) (some cmax) = some nmax
      ∧ List.Forall₂ (· ≤ ·) nmin nmax := by
  have hd0 : d0.length = n := hrows d0 (List.mem_cons_self _ _)
  have hds : ∀ r ∈ ds, r.length = d0.length := fun r hr => by
    rw [hd0]; exact hrows r (List.mem_cons_of_mem _ hr)
  have hrmin := axisReduce_eq min d0 ds hds
  have hrmax := axisReduce_eq max d0 ds hds
  have hlmin : (ds.foldl (fun acc row => List.zipWith min acc row) d0).length
      = n := by rw [foldl_zipWith_length min ds d0 hds, hd0]
  have hlmax : (ds.foldl (fun acc row => List.zipWith max acc row) d0).length
      = n := by rw [foldl_zipWith_length max ds d0 hds, hd0]
  refine ⟨List.zipWith min cmin
      (ds.foldl (fun acc row => List.zipWith min acc row) d0),
    List.zipWith max cmax
      (ds.foldl (fun acc row => List.zipWith max acc row) d0),
    ?_, ?_, ?_⟩
  · unfold new_extrema
    rw [hrmin]
    exact axisReduce_pair min cmin _ (by rw [hlmin, hmin])
  · unfold new_extrema
    rw [hrmax]
    exact axisReduce_pair max cmax _ (by rw [hlmax, hmax])
  · exact zipWith_min_le_zipWith_max hle (foldl_zipWith_le ds (forall2_le_refl d0))

/-- Witness for C8: batch `[[1,5,3],[4,0,6]]` with extrema
`[0,0,0] ≤ [2,2,2]`. -/
theorem claim_C8_witness :
    (∀ r ∈ ([[1, 5, 3], [4, 0, 6]] : List (List Int)), r.length = 3)
    ∧ ([0, 0, 0] : List Int).length = 3
    ∧ ([2, 2, 2] : List Int).length = 3
    ∧ List.Forall₂ (· ≤ ·) ([0, 0, 0] : List Int) [2, 2, 2]
    ∧ ∃ nmin nmax,
        new_extrema min [[(1 : Int), 5, 3], [4, 0, 6]] (some [0, 0, 0])
          = some nmin
        ∧ new_extrema max [[(1 : Int), 5, 3], [4, 0, 6]] (some [2, 2, 2])
          = some nmax
        ∧ List.Forall₂ (· ≤ ·) nmin nmax :=
  ⟨by decide, by decide, by decide,
   List.Forall₂.cons (by decide)
     (List.Forall₂.cons (by decide)
       (List.Forall₂.cons (by decide) List.Forall₂.nil)),
   claim_C8 [1, 5, 3] [[4, 0, 6]] [0, 0, 0] [2, 2, 2] 3
     (by decide) (by decide) (by decide)
     (List.Forall₂.cons (by decide)
       (List.Forall₂.cons (by decide)
         (List.Forall₂.cons (by decide) List.Forall₂.nil)))⟩

/-- C3 (amended): for every file shorter than 4 bytes (including an
empty file), `is_big_wig` fails rather than returning a boolean — but
the failure is `struct.error` from `struct.unpack` (the short
`read(4)` itself raises nothing), not an `IOError`. -/
theorem claim_C3 (file : List Nat) (hshort : file.length < 4) :
    is_big_wig file = Except.error UtilError.structError := by
  rcases file with _ | ⟨a, _ | ⟨b, _ | ⟨c, _ | ⟨d, rest⟩⟩⟩⟩
  · rfl
  · rfl
  · rfl
  · rfl
  · exfalso
    simp only [List.length_cons] at hshort
    omega

/-- Counterexample to C3 as stated: on the empty file the sniffer
fails with the struct-unpack error, which is not the `IOError` the
claim names. -/
theorem claim_C3_counterexample :
    is_big_wig [] = Except.error UtilError.structError
    ∧ UtilError.structError ≠ UtilError.ioError := by
  constructor
  · rfl
  · decide

/-- Witness for C3: a 2-byte file. -/
theorem claim_C3_witness :
    ([0x26, 0xFC] : List Nat).length < 4
    ∧ is_big_wig [0x26, 0xFC] = Except.error UtilError.structError :=
  ⟨by decide, claim_C3 [0x26, 0xFC] (by decide)⟩

/-- C5: for every file with at least 4 bytes, `is_big_wig` returns
`true` iff the first 4 bytes read as the magic constant in
little-endian or in big-endian order, and returns `false` (not an
error) otherwise. -/
theorem claim_C5 (b0 b1 b2 b3 : Nat) (rest : List Nat)
    (h0 : b0 < 256) (h1 : b1 < 256) (h2 : b2 < 256) (h3 : b3 < 256) :
    (is_big_wig (b0 :: b1 :: b2 :: b3 :: rest) = Except.ok true
      ↔ (unpackLE b0 b1 b2 b3 = BIG_WIG_SIGNATURE
         ∨ unpackBE b0 b1 b2 b3 = BIG_WIG_SIGNATURE))
    ∧ (is_big_wig (b0 :: b1 :: b2 :: b3 :: rest) = Except.ok false
      ↔ ¬(unpackLE b0 b1 b2 b3 = BIG_WIG_SIGNATURE
          ∨ unpackBE b0 b1 b2 b3 = BIG_WIG_SIGNATURE)) := by
  have hbw : is_big_wig (b0 :: b1 :: b2 :: b3 :: rest)
      = if unpackLE b0 b1 b2 b3 = BIG_WIG_SIGNATURE
           ∨ unpackBE b0 b1 b2 b3 = BIG_WIG_SIGNATURE
        then Except.ok true else Except.ok false := rfl
  by_cases hsig : unpackLE b0 b1 b2 b3 = BIG_WIG_SIGNATURE
      ∨ unpackBE b0 b1 b2 b3 = BIG_WIG_SIGNATURE
  · rw [hbw, if_pos hsig]
    simp [hsig]
  · rw [hbw, if_neg hsig]
    simp [hsig]

/-- Witness for C5: the little-endian magic prefix `26 FC 8F 88` is
accepted, the all-zero prefix is rejected. -/
theorem claim_C5_witness :
    is_big_wig [0x26, 0xFC, 0x8F, 0x88] = Except.ok true
    ∧ is_big_wig [0, 0, 0, 0] = Except.ok false :=
  ⟨(claim_C5 0x26 0xFC 0x8F 0x88 [] (by decide) (by decide) (by decide)
      (by decide)).1.mpr (Or.inl (by decide)),
   (claim_C5 0 0 0 0 [] (by decide) (by decide) (by decide)
      (by decide)).2.mpr (by decide)⟩

/-- C6: the observation-count check returns the array's second
dimension when the previous count is `None`, returns the same count
when it matches, and fails (`AssertionError`, the
`InconsistentShapeError`-equivalent) when it differs. -/
theorem claim_C6 (num_obs : Option Nat) (continuous : List (List Int)) :
    (num_obs = none →
      init_num_obs num_obs continuous = some (numCols continuous))
    ∧ (num_obs = some (numCols continuous) →
      init_num_obs num_obs continuous = some (numCols continuous))
    ∧ (∀ m, num_obs = some m → m ≠ numCols continuous →
      init_num_obs num_obs continuous = none) := by
  refine ⟨fun h => ?_, fun h => ?_, fun m hm hne => ?_⟩
  · subst h; rfl
  · subst h; simp [init_num_obs]
  · subst hm; simp [init_num_obs, hne]

/-- Witness for C6: a 1×5 array; previous counts `None`, `5`, `6`. -/
theorem claim_C6_witness :
    init_num_obs none [[(1 : Int), 2, 3, 4, 5]] = some 5
    ∧ init_num_obs (some 5) [[(1 : Int), 2, 3, 4, 5]] = some 5
    ∧ init_num_obs (some 6) [[(1 : Int), 2, 3, 4, 5]] = none :=
  ⟨(claim_C6 none [[(1 : Int), 2, 3, 4, 5]]).1 rfl,
   (claim_C6 (some 5) [[(1 : Int), 2, 3, 4, 5]]).2.1 rfl,
   (claim_C6 (some 6) [[(1 : Int), 2, 3, 4, 5]]).2.2 6 rfl (by decide)⟩

/-- C7: `maybe_gzip_open` takes the compressed path exactly when the
filename ends in `".gz"` (extension separator + `"gz"`), compared
case-sensitively (`".GZ"` opens plain); the decision is a pure function
of the filename — file content never enters it. -/
theorem claim_C7 (filename : Line) :
    (maybe_gzip_open filename = OpenResult.gzipStream
      ↔ List.isSuffixOf ['.', 'g', 'z'] filename = true)
    ∧ maybe_gzip_open ['a', '.', 'g', 'z'] = OpenResult.gzipStream
    ∧ maybe_gzip_open ['a', '.', 'G', 'Z'] = OpenResult.plainFile := by
  refine ⟨?_, by decide, by decide⟩
  have hS : SUFFIX_GZ = ['.', 'g', 'z'] := rfl
  rw [← hS]
  unfold maybe_gzip_open
  cases h : SUFFIX_GZ.isSuffixOf filename <;> simp [h]

/-- C10: `ignore_comments` yields exactly the subsequence of items not
starting with `"#"`: it equals the order-preserving filter by the
head-character test, is a sublist of the input (order kept, items
unchanged), and retains every item whose first character is not
`"#"`. -/
theorem claim_C10 (l : List Line) :
    ignore_comments l = l.filter (fun s => !(s.head? == some '#'))
    ∧ List.Sublist (ignore_comments l) l
    ∧ ∀ s ∈ l, s.head? ≠ some '#' → s ∈ ignore_comments l := by
  have hpt : ∀ s : Line, (!pyStartsWith s ['#']) = (!(s.head? == some '#')) := by
    intro s
    cases s with
    | nil => rfl
    | cons c cs =>
      show (!(['#'].isPrefixOf (c :: cs))) = (!(some c == some '#'))
      simp only [List.isPrefixOf, List.isPrefixOf_nil_left, Bool.and_true]
      rw [Bool.beq_comm]
      rfl
  have hfe : ignore_comments l = l.filter (fun s => !(s.head? == some '#')) := by
    unfold ignore_comments
    exact List.filter_congr (fun s _ => hpt s)
  refine ⟨hfe, ?_, ?_⟩
  · exact List.filter_sublist l
  · intro s hs hhead
    rw [hfe, List.mem_filter]
    refine ⟨hs, ?_⟩
    simp [hhead]

/-- Witness for C7: the filename `x.gz`. -/
theorem claim_C7_witness :
    (maybe_gzip_open ['x', '.', 'g', 'z'] = OpenResult.gzipStream
      ↔ List.isSuffixOf ['.', 'g', 'z'] ['x', '.', 'g', 'z'] = true)
    ∧ maybe_gzip_open ['a', '.', 'g', 'z'] = OpenResult.gzipStream
    ∧ maybe_gzip_open ['a', '.', 'G', 'Z'] = OpenResult.plainFile :=
  claim_C7 ['x', '.', 'g', 'z']

/-- Witness for C10: the list `["#c", "a"]`. -/
theorem claim_C10_witness :
    ignore_comments [['#', 'c'], ['a']]
        = [['#', 'c'], ['a']].filter (fun s => !(s.head? == some '#'))
    ∧ List.Sublist (ignore_comments [['#', 'c'], ['a']]) [['#', 'c'], ['a']] :=
  ⟨(claim_C10 [['#', 'c'], ['a']]).1, (claim_C10 [['#', 'c'], ['a']]).2.1⟩

end Genomedata
